import Mathlib

/-!
The authentication chain and the ACL evaluator of `auth-plug.c`

A shallow embedding of `src/auth-plug.c` (mosquitto-auth-plug) and theorems about
`mosquitto_auth_plugin_init`, `mosquitto_auth_unpwd_check` and
`mosquitto_auth_acl_check`.

Conventions of the embedding

* A C string is the list of its characters before the terminating NUL; a nullable
  `char *` is an `Option`.
* A `void *` handle is a natural number, `0` being `NULL`.
* Functions that live outside `auth-plug.c` (the C library, the broker library, the
  back-end modules, the hash verifier) are fields of `Env`.
* The preprocessor configuration is a value of `Build`.
* Calls made to back-ends are recorded in a ghost log of `BackendCall`s.
* Allocation (`malloc`, `strdup`) is taken to succeed whenever the size asked for can
  exist; logging is left out.
* Sizes are those of the usual 64-bit targets: `size_t` has 64 bits, `int` has 32.
-/

namespace AuthPlug

/-! ## Data model -/

/-- A C string: the characters that precede the terminating NUL. -/
abbrev CStr := List Char

/-- A `void *` handle; `0` is `NULL`. -/
abbrev Handle := Nat

/-- Return code `MOSQ_ERR_SUCCESS` of `mosquitto.h`. -/
def MOSQ_ERR_SUCCESS : Int := 0

/-- Return code `MOSQ_ERR_AUTH` of `mosquitto.h`. -/
def MOSQ_ERR_AUTH : Int := 11

/-- Return code `MOSQ_ERR_ACL_DENIED` of `mosquitto.h`. -/
def MOSQ_ERR_ACL_DENIED : Int := 12

/-- Return code `MOSQ_ERR_UNKNOWN` of `mosquitto.h`. -/
def MOSQ_ERR_UNKNOWN : Int := 13

/-- The constant `NBACKENDS` (line 53). -/
def NBACKENDS : Nat := 4

/-- The record `struct backend_p` (lines 56-63); the `kill` pointer is never called by
this file and is left out. -/
structure backend_p where
  conf : Handle
  name : CStr
  getuser : Handle → CStr → Option CStr
  superuser : Handle → CStr → Int
  aclcheck : Handle → CStr → CStr → Int → Int

/-- One cell of the array `be_list`, which `malloc` hands out uninitialised. -/
inductive Slot where
  | uninit
  | null
  | ptr (b : backend_p)

/-- The fields of `struct userdata` (lines 65-81) that the code reads after it has set
them: `be`, `be_list`, the topic template and the superuser pattern. -/
structure userdata where
  be : Handle
  be_list : List Slot
  topicprefix : Option CStr
  superusers : Option CStr

/-- The functions `auth-plug.c` calls but does not define. -/
structure Env where
  pbkdf2_check : CStr → CStr → Int
  fnmatch : CStr → CStr → Int → Int
  mosquitto_topic_matches_sub : CStr → CStr → Bool
  be_mysql_init : Handle
  be_mysql_getuser : Handle → CStr → Option CStr
  be_mysql_superuser : Handle → CStr → Int
  be_mysql_aclcheck : Handle → CStr → CStr → Int → Int
  be_cdb_init : Handle
  be_cdb_getuser : Handle → CStr → Option CStr
  be_cdb_superuser : Handle → CStr → Int
  be_cdb_aclcheck : Handle → CStr → CStr → Int → Int

/-- The preprocessor symbols the file tests. `BE_SQLITE` and `BE_REDIS` are absent: with
either defined the file does not compile (`dbpath` is undeclared, the label `out` is
missing). -/
structure Build where
  BE_CDB : Bool
  BE_MYSQL : Bool

/-- Ghost log entry: a call into a back-end. `getuser i` is the call through
`be_list[i]`; the other two are the calls on `ud->be` under `BE_MYSQL`. -/
inductive BackendCall where
  | getuser (i : Nat)
  | be_mysql_superuser
  | be_mysql_aclcheck
  deriving DecidableEq, Repr

/-- What a decision entry point hands back: the `int` it returns and the back-end
calls it made. -/
structure Outcome where
  ret : Int
  calls : List BackendCall
  deriving DecidableEq, Repr

/-! ## `mosquitto_auth_unpwd_check` (lines 289-324) -/

/-- The local variables of `mosquitto_auth_unpwd_check` that survive the loop, with the
ghost log. -/
structure UnpwdState where
  phash : Option CStr
  authorized : Bool
  calls : List BackendCall
  deriving DecidableEq, Repr

/-- The loop of lines 300-316. The first argument is the array from `bep` on, `i` is the
index of `bep`. Reading an uninitialised cell, or past the array, is undefined:
`none`. -/
def unpwd_loop (env : Env) (username password : CStr) :
    List Slot → Nat → UnpwdState → Option UnpwdState
  | [], _, _ => none
  | Slot.uninit :: _, _, _ => none
  | Slot.null :: _, _, st => some st
  | Slot.ptr b :: rest, i, st =>
    let phash := b.getuser b.conf username
    let st1 : UnpwdState :=
      ⟨phash, st.authorized, st.calls ++ [BackendCall.getuser i]⟩
    match phash with
    | some h =>
      if env.pbkdf2_check password h = 1 then
        some ⟨phash, true, st1.calls⟩
      else
        unpwd_loop env username password rest (i + 1) st1
    | none => unpwd_loop env username password rest (i + 1) st1

/-- The function `mosquitto_auth_unpwd_check`. `none` is undefined behaviour. -/
def mosquitto_auth_unpwd_check (env : Env) (ud : userdata)
    (username password : Option CStr) : Option Outcome :=
  match username, password with
  | some u, some p =>
    if u.isEmpty || p.isEmpty then some ⟨MOSQ_ERR_AUTH, []⟩
    else
      match unpwd_loop env u p ud.be_list 0 ⟨none, false, []⟩ with
      | none => none
      | some st =>
        if st.phash = none then some ⟨MOSQ_ERR_AUTH, st.calls⟩
        else some ⟨if st.authorized then MOSQ_ERR_SUCCESS else MOSQ_ERR_AUTH, st.calls⟩
  | _, _ => some ⟨MOSQ_ERR_AUTH, []⟩

/-- A well-formed `be_list`: the adapters of `chain`, then the `NULL` cell, then
whatever the rest of the array holds. -/
def be_list_of (chain : List backend_p) (tail : List Slot) : List Slot :=
  chain.map Slot.ptr ++ Slot.null :: tail

/-- Adapter `b` returns a record for `username` that the verifier accepts for
`password` (`pbkdf2_check` yields `1`). -/
def accepts (env : Env) (username password : CStr) (b : backend_p) : Bool :=
  match b.getuser b.conf username with
  | some h => decide (env.pbkdf2_check password h = 1)
  | none => false

/-- The log of `getuser` calls on the cells `i, i+1, ..., i+n-1`. -/
def getuser_calls (i n : Nat) : List BackendCall :=
  (List.range' i n).map BackendCall.getuser

/-! ## `mosquitto_auth_acl_check` (lines 326-408) -/

/-- The test of lines 342-347: a pattern is configured and `fnmatch` returns `0`. -/
def superuser_match (env : Env) (ud : userdata) (username : CStr) : Bool :=
  match ud.superusers with
  | none => false
  | some pat => decide (env.fnmatch pat username 0 = 0)

/-- Lines 353-356: the value of `match` after the `BE_MYSQL` block, with the calls made.
The operator `||` does not evaluate its right operand when the left one is non-zero.
Without `BE_MYSQL` the block is empty and `match` keeps its initial `0`. -/
def legacy_match (build : Build) (env : Env) (ud : userdata) (username topic : CStr)
    (access : Int) : Nat × List BackendCall :=
  if build.BE_MYSQL then
    if env.be_mysql_superuser ud.be username ≠ 0 then
      (1, [BackendCall.be_mysql_superuser])
    else if env.be_mysql_aclcheck ud.be username topic access ≠ 0 then
      (1, [BackendCall.be_mysql_superuser, BackendCall.be_mysql_aclcheck])
    else
      (0, [BackendCall.be_mysql_superuser, BackendCall.be_mysql_aclcheck])
  else
    (0, [])

/-- Lines 367-370: the loop that counts the `%` of the template, `n` being the count
so far. -/
def count_percent : CStr → Nat → Nat
  | [], n => n
  | c :: s, n => count_percent s (if c = '%' then n + 1 else n)

/-- Lines 377-386: the expansion loop. The first list is the template from `s` on, the
second the string held in `tname`; `t` points at its terminator throughout, so that
`*t++ = *s++; *t = 0` appends one character and `strcat` appends the user name. -/
def expand_loop (username : CStr) : CStr → CStr → CStr
  | [], tname => tname
  | c :: s, tname =>
    if c ≠ '%' then expand_loop username s (tname ++ [c])
    else expand_loop username s (tname ++ username)

/-- Lines 361-400: the value of `match` after the template block, `m` being its value
before. The matcher is taken to store a result in `bf` on every call, and the buffer
`tname` to hold the expansion, as it does whenever the capacity `tlen` is within the
range of `int`. -/
def template_match (env : Env) (ud : userdata) (username topic : CStr) (m : Nat) : Nat :=
  match ud.topicprefix with
  | none => m
  | some template =>
    let tname := expand_loop username template []
    let m1 := if topic = tname then 1 else m
    m1 ||| (if env.mosquitto_topic_matches_sub tname topic then 1 else 0)

/-- The function `mosquitto_auth_acl_check`. The topic is a non-NULL C string, as the
broker passes it. -/
def mosquitto_auth_acl_check (build : Build) (env : Env) (ud : userdata)
    (_clientid : Option CStr) (username : Option CStr) (topic : CStr) (access : Int) :
    Outcome :=
  match username with
  | none => ⟨MOSQ_ERR_ACL_DENIED, []⟩
  | some u =>
    if u.isEmpty then ⟨MOSQ_ERR_ACL_DENIED, []⟩
    else if superuser_match env ud u then ⟨MOSQ_ERR_SUCCESS, []⟩
    else
      let r := legacy_match build env ud u topic access
      if r.1 ≠ 0 then ⟨(r.1 : Int), r.2⟩
      else if template_match env ud u topic r.1 = 1 then ⟨MOSQ_ERR_SUCCESS, r.2⟩
      else ⟨MOSQ_ERR_ACL_DENIED, r.2⟩

/-! ## `mosquitto_auth_plugin_init` (lines 91-265) -/

/-- Modelled from the spec: `_fatal` (defined in `log.c`, not part of `src/`) is the
fatal error that aborts initialisation, so nothing after a call to it runs; that is
the outcome `fatal`. The outcome `returned` is a return, with the code returned and
the user data left behind. The outcome `undefined` is undefined behaviour: `free(p)`
at line 211 on a pointer that `strsep` has moved into the middle of the block
`strdup` returned. -/
inductive InitOutcome where
  | fatal
  | returned (ret : Int) (ud : userdata)
  | undefined

/-- The loop of lines 138-147 as far as it touches `ud`: a later `superusers` or
`topic_prefix` option replaces an earlier one. -/
def scan_opts : List (CStr × CStr) → userdata → userdata
  | [], ud => ud
  | (key, value) :: os, ud =>
    let ud1 := if key = "superusers".toList then { ud with superusers := some value } else ud
    let ud2 := if key = "topic_prefix".toList then { ud1 with topicprefix := some value } else ud1
    scan_opts os ud2

/-- One call `strsep(&p, ",")` on a non-NULL `p`: the token, and the new `p` (`NULL`
once the last token is handed out). -/
def strsep_some : CStr → CStr × Option CStr
  | [] => ([], none)
  | c :: s =>
    if c = ',' then ([], some s)
    else ((c :: (strsep_some s).1), (strsep_some s).2)

/-- The call `strsep(&p, ",")`: the returned token and the new `p`. -/
def strsep : Option CStr → Option CStr × Option CStr
  | none => (none, none)
  | some s => (some (strsep_some s).1, (strsep_some s).2)

/-- The adapter lines 172-182 build for `mysql`. -/
def mysql_backend (env : Env) : backend_p :=
  ⟨env.be_mysql_init, "mysql".toList, env.be_mysql_getuser, env.be_mysql_superuser,
    env.be_mysql_aclcheck⟩

/-- The adapter lines 189-199 build for `cdb`. -/
def cdb_backend (env : Env) : backend_p :=
  ⟨env.be_cdb_init, "cdb".toList, env.be_cdb_getuser, env.be_cdb_superuser,
    env.be_cdb_aclcheck⟩

/-- The loop of lines 166-209. `q` is the token at hand, `p` the rest of the list,
`nord` the number of adapters stored so far; the result is the array `be_list` and
the pointer `p` at loop exit, or `none` when `_fatal` was called. The first argument is
the counter the recursion runs on: the guard `nord < NBACKENDS` ends the loop after
`NBACKENDS` rounds at most, before a counter that starts above `NBACKENDS` runs out. -/
def init_loop (env : Env) : Nat → Nat → Option CStr → Option CStr → List Slot →
    Option (List Slot × Option CStr)
  | 0, _, _, p, be_list => some (be_list, p)
  | fuel + 1, nord, q, p, be_list =>
    match q with
    | none => some (be_list, p)
    | some q =>
      if q.isEmpty || !(decide (nord < NBACKENDS)) then some (be_list, p)
      else
        let next := strsep p
        if q = "mysql".toList then
          if env.be_mysql_init = 0 then none
          else
            init_loop env fuel (nord + 1) next.1 next.2
              ((be_list.set nord (Slot.ptr (mysql_backend env))).set (nord + 1) Slot.null)
        else if q = "cdb".toList then
          if env.be_cdb_init = 0 then none
          else
            init_loop env fuel (nord + 1) next.1 next.2
              ((be_list.set nord (Slot.ptr (cdb_backend env))).set (nord + 1) Slot.null)
        else none

/-- The function `mosquitto_auth_plugin_init`. `backends` is what `p_stab("backends")`
yields, `none` when the key was not given; `auth_opts` are the options of the broker.
After the loop comes `free(p)` (line 211): harmless when `strsep` has used up the list
and left `p` at `NULL`, undefined when input is left and `p` points into the block.
With `BE_CDB` the local `cdbpath`, with `BE_MYSQL` the local `userquery`, is still
`NULL` when tested, so these builds return `MOSQ_ERR_UNKNOWN`. -/
def mosquitto_auth_plugin_init (build : Build) (env : Env) (backends : Option CStr)
    (auth_opts : List (CStr × CStr)) : InitOutcome :=
  let ud := scan_opts auth_opts ⟨0, [], none, none⟩
  match backends with
  | none => InitOutcome.fatal
  | some b =>
    let first := strsep (some b)
    match init_loop env (NBACKENDS + 1) 0 first.1 first.2
        (List.replicate (NBACKENDS + 1) Slot.uninit) with
    | none => InitOutcome.fatal
    | some (_, some _) => InitOutcome.undefined
    | some (be_list, none) =>
      if build.BE_CDB then InitOutcome.returned MOSQ_ERR_UNKNOWN { ud with be_list := be_list }
      else if build.BE_MYSQL then
        InitOutcome.returned MOSQ_ERR_UNKNOWN { ud with be_list := be_list }
      else InitOutcome.returned MOSQ_ERR_SUCCESS { ud with be_list := be_list }

/-- The adapters stored in `be_list` before its first `NULL` cell; `none` when an
uninitialised cell, or the end of the array, comes first. -/
def chain_of : List Slot → Option (List backend_p)
  | [] => none
  | Slot.uninit :: _ => none
  | Slot.null :: _ => some []
  | Slot.ptr b :: rest => (chain_of rest).map (fun l => b :: l)

/-! ## Matchers of the libraries, for concrete scenarios -/

/-- Cut a topic into its levels at every `/`. -/
def split_levels : CStr → List CStr
  | [] => [[]]
  | c :: s =>
    if c = '/' then [] :: split_levels s
    else
      match split_levels s with
      | [] => [[c]]
      | l :: ls => (c :: l) :: ls

/-- Subscription levels against topic levels: `+` stands for exactly one level, `#`
(last level only) for all the levels that remain, none included. -/
def match_levels : List CStr → List CStr → Bool
  | [], [] => true
  | [], _ :: _ => false
  | s :: ss, ts =>
    if s = ['#'] then ss.isEmpty
    else
      match ts with
      | [] => false
      | t :: ts1 => (decide (s = ['+']) || decide (s = t)) && match_levels ss ts1

/-- Modelled from the spec: the wildcard matcher of the broker
(`mosquitto_topic_matches_sub`, library code that is not in `src/`), with the
multi-level and single-level wildcard semantics of the topic grammar. -/
def mqtt_topic_matches_sub (sub topic : CStr) : Bool :=
  match_levels (split_levels sub) (split_levels topic)

/-- Modelled from the spec: the glob matcher (`fnmatch` of the C library with flags
`0`, not in `src/`) on patterns made of plain characters, `?` and `*`; `0` is a
match, `1` is `FNM_NOMATCH`. -/
def glob : CStr → CStr → Bool
  | [], s => s.isEmpty
  | c :: pat, s =>
    if c = '*' then s.tails.any (glob pat)
    else
      match s with
      | [] => false
      | d :: s1 => (decide (c = '?') || decide (c = d)) && glob pat s1

/-- The glob matcher in the shape of `fnmatch`. -/
def glob_fnmatch (pat s : CStr) (_flags : Int) : Int :=
  if glob pat s then 0 else 1

/-! ## Concrete scenarios -/

/-- A toy verifier: a stored record is accepted exactly when it spells the password. -/
def demo_pbkdf2_check (password hash : CStr) : Int :=
  if hash = password then 1 else 0

/-- A scenario with both back-ends available. The `mysql` store holds the record
`stale` for `bob`, the `cdb` store holds `secret` for `bob` and for `carol`; no store
grants any superuser flag or ACL. -/
def demo_env : Env where
  pbkdf2_check := demo_pbkdf2_check
  fnmatch := glob_fnmatch
  mosquitto_topic_matches_sub := mqtt_topic_matches_sub
  be_mysql_init := 1
  be_mysql_getuser := fun _ u => if u = "bob".toList then some "stale".toList else none
  be_mysql_superuser := fun _ _ => 0
  be_mysql_aclcheck := fun _ _ _ _ => 0
  be_cdb_init := 2
  be_cdb_getuser := fun _ u =>
    if u = "bob".toList ∨ u = "carol".toList then some "secret".toList else none
  be_cdb_superuser := fun _ _ => 0
  be_cdb_aclcheck := fun _ _ _ _ => 0

/-- The build with no `BE_*` symbol defined. -/
def plain_build : Build := ⟨false, false⟩

/-- User data with the chain `mysql, cdb`, no superuser pattern and no template. -/
def demo_ud : userdata :=
  ⟨0, be_list_of [mysql_backend demo_env, cdb_backend demo_env] [Slot.uninit, Slot.uninit],
    none, none⟩

/-- Access code `MOSQ_ACL_READ` of `mosquitto_plugin.h`: the access under which the
broker checks delivery to a subscriber. -/
def MOSQ_ACL_READ : Int := 1

/-- An adapter whose store flags every user as superuser and grants every ACL. -/
def granting_backend : backend_p :=
  ⟨3, "mysql".toList, fun _ _ => none, fun _ _ => 1, fun _ _ _ _ => 1⟩

/-- The scenario of `demo_env` with a `mysql` module that flags every user as
superuser. -/
def granting_env : Env :=
  { demo_env with be_mysql_superuser := fun _ _ => 1 }

/-- The build with `BE_MYSQL` defined. -/
def mysql_build : Build := ⟨false, true⟩

/-- The comma-separated list that starts with the names `names`, each followed by a
comma, and goes on with `t`. -/
def prepend_names : List CStr → CStr → CStr
  | [], t => t
  | n :: ns, t => n ++ ',' :: prepend_names ns t

/-- The adapter `mosquitto_auth_plugin_init` builds for a known name. -/
def adapter_of (env : Env) (name : CStr) : backend_p :=
  if name = "mysql".toList then mysql_backend env else cdb_backend env

/-- A name of the closed set of back-end kinds the loop recognises. -/
def known_name (name : CStr) : Prop :=
  name = "mysql".toList ∨ name = "cdb".toList

instance known_name_decidable (name : CStr) : Decidable (known_name name) :=
  inferInstanceAs (Decidable (name = "mysql".toList ∨ name = "cdb".toList))

/-! ## The expansion loop on the buffer (lines 372-386) -/

/-- The template with each `%` replaced by a copy of the user name and every other
character kept, in order, as the specification words it. -/
def expand_spec (template username : CStr) : CStr :=
  template.flatMap (fun c => if c = '%' then username else [c])

/-- The comma-separated list of the names `names`, no comma after the last. -/
def join_names : List CStr → CStr
  | [] => []
  | [n] => n
  | n :: m :: ns => n ++ ',' :: join_names (m :: ns)

/-- The function `mosquitto_auth_plugin_cleanup` (lines 267-275): the `int` returned
and the ghost log of the indices of `be_list` whose `kill` was called. The body holds
a comment (`FIXME`) and the `return`, nothing else. -/
def mosquitto_auth_plugin_cleanup (_ud : userdata) : Int × List Nat :=
  (MOSQ_ERR_SUCCESS, [])

/-- The teardown the specification asks for: `kill` on every adapter of the chain, once
each, in insertion order. -/
def kill_calls_expected (chain : List backend_p) : List Nat :=
  List.range chain.length

/-! ## Theorems: the authentication chain -/

/-- The loop over a well-formed `be_list` ends, and ends authorised with a record in
hand exactly when some adapter of the chain is accepted. -/
theorem unpwd_loop_spec (env : Env) (u p : CStr) (tail : List Slot) :
    ∀ (chain : List backend_p) (i : Nat) (st : UnpwdState),
      ∃ st1, unpwd_loop env u p (be_list_of chain tail) i st = some st1 ∧
        (chain.any (accepts env u p) = true → st1.authorized = true ∧ st1.phash ≠ none) ∧
        (chain.any (accepts env u p) = false → st1.authorized = st.authorized)
  | [], i, st => ⟨st, by simp [be_list_of, unpwd_loop], by simp, by simp⟩
  | b :: chain, i, st => by
    cases hg : b.getuser b.conf u with
    | none =>
      obtain ⟨st1, h1, h2, h3⟩ := unpwd_loop_spec env u p tail chain (i + 1)
        ⟨none, st.authorized, st.calls ++ [BackendCall.getuser i]⟩
      refine ⟨st1, ?_, ?_, ?_⟩
      · simpa [be_list_of, unpwd_loop, hg] using h1
      · intro h
        apply h2
        simpa [accepts, hg] using h
      · intro h
        have h4 : chain.any (accepts env u p) = false := by
          simpa [accepts, hg] using h
        simpa using h3 h4
    | some r =>
      by_cases hok : env.pbkdf2_check p r = 1
      · refine ⟨⟨some r, true, st.calls ++ [BackendCall.getuser i]⟩, ?_, ?_, ?_⟩
        · simp [be_list_of, unpwd_loop, hg, hok]
        · intro _
          simp
        · intro h
          simp [accepts, hg, hok] at h
      · obtain ⟨st1, h1, h2, h3⟩ := unpwd_loop_spec env u p tail chain (i + 1)
          ⟨some r, st.authorized, st.calls ++ [BackendCall.getuser i]⟩
        refine ⟨st1, ?_, ?_, ?_⟩
        · simpa [be_list_of, unpwd_loop, hg, hok] using h1
        · intro h
          apply h2
          simpa [accepts, hg, hok] using h
        · intro h
          have h4 : chain.any (accepts env u p) = false := by
            simpa [accepts, hg, hok] using h
          simpa using h3 h4

/-- While no adapter is accepted the loop calls `getuser` on every adapter, in order. -/
theorem unpwd_loop_calls_rejecting (env : Env) (u p : CStr) (tail : List Slot) :
    ∀ (chain : List backend_p) (i : Nat) (st : UnpwdState),
      (∀ a ∈ chain, accepts env u p a = false) →
      ∃ st1, unpwd_loop env u p (be_list_of chain tail) i st = some st1 ∧
        st1.calls = st.calls ++ getuser_calls i chain.length
  | [], i, st, _ => ⟨st, by simp [be_list_of, unpwd_loop], by simp [getuser_calls]⟩
  | b :: chain, i, st, h => by
    have hb : accepts env u p b = false := h b (List.mem_cons_self _ _)
    have hc : ∀ a ∈ chain, accepts env u p a = false :=
      fun a ha => h a (List.mem_cons_of_mem _ ha)
    cases hg : b.getuser b.conf u with
    | none =>
      obtain ⟨st1, h1, h2⟩ := unpwd_loop_calls_rejecting env u p tail chain (i + 1)
        ⟨none, st.authorized, st.calls ++ [BackendCall.getuser i]⟩ hc
      refine ⟨st1, ?_, ?_⟩
      · simpa [be_list_of, unpwd_loop, hg] using h1
      · simp [h2, getuser_calls, List.range'_succ]
    | some r =>
      have hok : ¬ env.pbkdf2_check p r = 1 := by
        simpa [accepts, hg] using hb
      obtain ⟨st1, h1, h2⟩ := unpwd_loop_calls_rejecting env u p tail chain (i + 1)
        ⟨some r, st.authorized, st.calls ++ [BackendCall.getuser i]⟩ hc
      refine ⟨st1, ?_, ?_⟩
      · simpa [be_list_of, unpwd_loop, hg, hok] using h1
      · simp [h2, getuser_calls, List.range'_succ]

/-- The loop stops at the first accepted adapter: it has called `getuser` on the
adapters up to that one and on none after it. -/
theorem unpwd_loop_calls_accepting (env : Env) (u p : CStr) (tail : List Slot)
    (b : backend_p) (post : List backend_p) (hb : accepts env u p b = true) :
    ∀ (pre : List backend_p) (i : Nat) (st : UnpwdState),
      (∀ a ∈ pre, accepts env u p a = false) →
      ∃ st1, unpwd_loop env u p (be_list_of (pre ++ b :: post) tail) i st = some st1 ∧
        st1.calls = st.calls ++ getuser_calls i (pre.length + 1)
  | [], i, st, _ => by
    cases hg : b.getuser b.conf u with
    | none => simp [accepts, hg] at hb
    | some r =>
      have hok : env.pbkdf2_check p r = 1 := by
        simpa [accepts, hg] using hb
      exact ⟨⟨some r, true, st.calls ++ [BackendCall.getuser i]⟩,
        by simp [be_list_of, unpwd_loop, hg, hok], by simp [getuser_calls]⟩
  | a :: pre, i, st, h => by
    have ha : accepts env u p a = false := h a (List.mem_cons_self _ _)
    have hc : ∀ x ∈ pre, accepts env u p x = false :=
      fun x hx => h x (List.mem_cons_of_mem _ hx)
    cases hg : a.getuser a.conf u with
    | none =>
      obtain ⟨st1, h1, h2⟩ := unpwd_loop_calls_accepting env u p tail b post hb pre (i + 1)
        ⟨none, st.authorized, st.calls ++ [BackendCall.getuser i]⟩ hc
      refine ⟨st1, ?_, ?_⟩
      · simpa [be_list_of, unpwd_loop, hg] using h1
      · simp [h2, getuser_calls, List.range'_succ]
    | some r =>
      have hok : ¬ env.pbkdf2_check p r = 1 := by
        simpa [accepts, hg] using ha
      obtain ⟨st1, h1, h2⟩ := unpwd_loop_calls_accepting env u p tail b post hb pre (i + 1)
        ⟨some r, st.authorized, st.calls ++ [BackendCall.getuser i]⟩ hc
      refine ⟨st1, ?_, ?_⟩
      · simpa [be_list_of, unpwd_loop, hg, hok] using h1
      · simp [h2, getuser_calls, List.range'_succ]

/-- The return value on a well-formed chain: success exactly when some adapter is
accepted. -/
theorem unpwd_check_ret (env : Env) (ud : userdata) (chain : List backend_p)
    (tail : List Slot) (u p : CStr) (hlist : ud.be_list = be_list_of chain tail)
    (hu : u ≠ []) (hp : p ≠ []) :
    (mosquitto_auth_unpwd_check env ud (some u) (some p)).map Outcome.ret =
      some (if chain.any (accepts env u p) then MOSQ_ERR_SUCCESS else MOSQ_ERR_AUTH) := by
  obtain ⟨st1, h1, h2, h3⟩ := unpwd_loop_spec env u p tail chain 0 ⟨none, false, []⟩
  have hu1 : u.isEmpty = false := by cases u <;> simp_all
  have hp1 : p.isEmpty = false := by cases p <;> simp_all
  cases hany : chain.any (accepts env u p) with
  | true =>
    obtain ⟨ha, hph⟩ := h2 hany
    simp [mosquitto_auth_unpwd_check, hu1, hp1, hlist, h1, ha, hph]
  | false =>
    have ha : st1.authorized = false := by simpa using h3 hany
    by_cases hph : st1.phash = none <;>
      simp [mosquitto_auth_unpwd_check, hu1, hp1, hlist, h1, ha, hph]

/-- The log of calls on a well-formed chain, in terms of the loop. -/
theorem unpwd_check_calls (env : Env) (ud : userdata) (chain : List backend_p)
    (tail : List Slot) (u p : CStr) (hlist : ud.be_list = be_list_of chain tail)
    (hu : u ≠ []) (hp : p ≠ []) (st1 : UnpwdState)
    (h1 : unpwd_loop env u p (be_list_of chain tail) 0 ⟨none, false, []⟩ = some st1) :
    (mosquitto_auth_unpwd_check env ud (some u) (some p)).map Outcome.calls =
      some st1.calls := by
  have hu1 : u.isEmpty = false := by cases u <;> simp_all
  have hp1 : p.isEmpty = false := by cases p <;> simp_all
  by_cases hph : st1.phash = none <;>
    simp [mosquitto_auth_unpwd_check, hu1, hp1, hlist, h1, hph]

/-- C1, as stated, fails: in the chain `mysql, cdb` the first adapter returns a record
for `bob` (so `k = 1`), the verifier rejects it, and the loop goes on to call `getuser`
on the second adapter as well. -/
theorem C1_second_adapter_consulted_after_rejected_record :
    (mysql_backend demo_env).getuser (mysql_backend demo_env).conf "bob".toList
        = some "stale".toList ∧
      demo_env.pbkdf2_check "secret".toList "stale".toList ≠ 1 ∧
      (mosquitto_auth_unpwd_check demo_env demo_ud (some "bob".toList)
          (some "secret".toList)).map Outcome.calls
        = some [BackendCall.getuser 0, BackendCall.getuser 1] ∧
      (mosquitto_auth_unpwd_check demo_env demo_ud (some "bob".toList)
          (some "secret".toList)).map Outcome.calls
        ≠ some [BackendCall.getuser 0] := by
  decide

/-- C1, amended: for every well-formed chain (of any length, 1 to 4 included) and every
non-empty user name and password, `mosquitto_auth_unpwd_check` calls `getuser` on the
adapters 1..k in chain order and on no other adapter, where k is the first adapter
whose record the verifier accepts; the adapters after k are never consulted, whatever
they would return. When no adapter returns an accepted record, all the adapters are
consulted, in chain order. -/
theorem C1_consults_up_to_first_accepted (env : Env) (ud : userdata)
    (chain : List backend_p) (tail : List Slot) (u p : CStr)
    (hlist : ud.be_list = be_list_of chain tail) (hu : u ≠ []) (hp : p ≠ []) :
    (∀ (pre : List backend_p) (b : backend_p) (post : List backend_p),
        chain = pre ++ b :: post → (∀ a ∈ pre, accepts env u p a = false) →
        accepts env u p b = true →
        (mosquitto_auth_unpwd_check env ud (some u) (some p)).map Outcome.calls =
          some (getuser_calls 0 (pre.length + 1))) ∧
      ((∀ a ∈ chain, accepts env u p a = false) →
        (mosquitto_auth_unpwd_check env ud (some u) (some p)).map Outcome.calls =
          some (getuser_calls 0 chain.length)) := by
  constructor
  · intro pre b post hsplit hpre hb
    obtain ⟨st1, h1, h2⟩ := unpwd_loop_calls_accepting env u p tail b post hb pre 0
      ⟨none, false, []⟩ hpre
    rw [← hsplit] at h1
    rw [unpwd_check_calls env ud chain tail u p hlist hu hp st1 h1, h2]
    simp
  · intro hall
    obtain ⟨st1, h1, h2⟩ := unpwd_loop_calls_rejecting env u p tail chain 0
      ⟨none, false, []⟩ hall
    rw [unpwd_check_calls env ud chain tail u p hlist hu hp st1 h1, h2]
    simp

/-- C1, amended, at work: with password `secret` the chain `mysql, cdb` is consulted
up to `cdb`, the first adapter with an accepted record for `bob`. -/
theorem C1_consults_up_to_first_accepted_witness :
    demo_ud.be_list =
        be_list_of [mysql_backend demo_env, cdb_backend demo_env] [Slot.uninit, Slot.uninit] ∧
      "bob".toList ≠ [] ∧ "secret".toList ≠ [] ∧
      (mosquitto_auth_unpwd_check demo_env demo_ud (some "bob".toList)
          (some "secret".toList)).map Outcome.calls = some (getuser_calls 0 2) :=
  ⟨rfl, by decide, by decide,
    (C1_consults_up_to_first_accepted demo_env demo_ud
      [mysql_backend demo_env, cdb_backend demo_env] [Slot.uninit, Slot.uninit]
      "bob".toList "secret".toList rfl (by decide) (by decide)).1
      [mysql_backend demo_env] (cdb_backend demo_env) [] rfl (by decide) (by decide)⟩

/-- C2, as stated, fails: the first record found for `bob` is `stale`, the verifier
rejects it for the password `secret`, and the check still returns
`MOSQ_ERR_SUCCESS`, because the next adapter holds an accepted record. -/
theorem C2_rejected_first_record_yet_success :
    (mysql_backend demo_env).getuser (mysql_backend demo_env).conf "bob".toList
        = some "stale".toList ∧
      demo_env.pbkdf2_check "secret".toList "stale".toList ≠ 1 ∧
      (mosquitto_auth_unpwd_check demo_env demo_ud (some "bob".toList)
          (some "secret".toList)).map Outcome.ret = some MOSQ_ERR_SUCCESS ∧
      MOSQ_ERR_SUCCESS ≠ MOSQ_ERR_AUTH := by
  decide

/-- C2, amended: for every well-formed chain and every non-empty user name and
password, if R is the record returned by the first adapter that returns a record, then
`mosquitto_auth_unpwd_check` returns `MOSQ_ERR_SUCCESS` when the verifier accepts
(password, R); when it rejects R the later adapters are still tried, and the result is
`MOSQ_ERR_AUTH` if none of them returns a record the verifier accepts and
`MOSQ_ERR_SUCCESS` if one of them does. -/
theorem C2_first_record_decides_unless_later_accepted (env : Env) (ud : userdata)
    (pre : List backend_p) (b : backend_p) (post : List backend_p) (tail : List Slot)
    (u p R : CStr) (hlist : ud.be_list = be_list_of (pre ++ b :: post) tail)
    (hu : u ≠ []) (hp : p ≠ []) (hpre : ∀ a ∈ pre, a.getuser a.conf u = none)
    (hb : b.getuser b.conf u = some R) :
    (env.pbkdf2_check p R = 1 →
        (mosquitto_auth_unpwd_check env ud (some u) (some p)).map Outcome.ret =
          some MOSQ_ERR_SUCCESS) ∧
      (env.pbkdf2_check p R ≠ 1 →
        ((∀ a ∈ post, accepts env u p a = false) →
          (mosquitto_auth_unpwd_check env ud (some u) (some p)).map Outcome.ret =
            some MOSQ_ERR_AUTH) ∧
        ((∃ a ∈ post, accepts env u p a = true) →
          (mosquitto_auth_unpwd_check env ud (some u) (some p)).map Outcome.ret =
            some MOSQ_ERR_SUCCESS)) := by
  have hret := unpwd_check_ret env ud (pre ++ b :: post) tail u p hlist hu hp
  have hpre1 : pre.any (accepts env u p) = false := by
    rw [List.any_eq_false]
    intro a ha
    simp [accepts, hpre a ha]
  have hany : (pre ++ b :: post).any (accepts env u p) =
      (decide (env.pbkdf2_check p R = 1) || post.any (accepts env u p)) := by
    simp [List.any_append, hpre1, accepts, hb]
  rw [hany] at hret
  refine ⟨?_, ?_⟩
  · intro hok
    simpa [hok] using hret
  · intro hrej
    refine ⟨?_, ?_⟩
    · intro hpost
      have h0 : post.any (accepts env u p) = false := by
        rw [List.any_eq_false]
        intro a ha
        simp [hpost a ha]
      simpa [hrej, h0] using hret
    · intro hpost
      have h1 : post.any (accepts env u p) = true := by
        rw [List.any_eq_true]
        exact hpost
      simpa [hrej, h1] using hret

/-- C2, amended, at work: `carol` is unknown to `mysql`, the first record found is the
one of `cdb`, and the verifier accepts it. -/
theorem C2_first_record_decides_unless_later_accepted_witness :
    demo_ud.be_list =
        be_list_of ([mysql_backend demo_env] ++ cdb_backend demo_env :: [])
          [Slot.uninit, Slot.uninit] ∧
      (mosquitto_auth_unpwd_check demo_env demo_ud (some "carol".toList)
          (some "secret".toList)).map Outcome.ret = some MOSQ_ERR_SUCCESS :=
  ⟨rfl,
    (C2_first_record_decides_unless_later_accepted demo_env demo_ud
      [mysql_backend demo_env] (cdb_backend demo_env) [] [Slot.uninit, Slot.uninit]
      "carol".toList "secret".toList "secret".toList rfl (by decide) (by decide)
      (by decide) (by decide)).1 (by decide)⟩

/-! ## Theorems: the ACL evaluator -/

/-- A non-empty C string fails the test `!*s`. -/
theorem isEmpty_false_of_ne_nil (u : CStr) (hu : u ≠ []) : u.isEmpty = false := by
  cases u <;> simp_all

/-- The `BE_MYSQL` block leaves `match` at `0` when the handle `ud->be` affirms
neither superuser nor ACL, in either build. -/
theorem legacy_match_fst_zero (build : Build) (env : Env) (ud : userdata)
    (u topic : CStr) (access : Int) (hbs : env.be_mysql_superuser ud.be u = 0)
    (hba : env.be_mysql_aclcheck ud.be u topic access = 0) :
    (legacy_match build env ud u topic access).1 = 0 := by
  unfold legacy_match
  cases build.BE_MYSQL <;> simp [hbs, hba]

/-- The template block with a template configured. -/
theorem template_match_some (env : Env) (ud : userdata) (u topic template : CStr)
    (h : ud.topicprefix = some template) :
    template_match env ud u topic 0 =
      ((if topic = expand_loop u template [] then 1 else 0) |||
        (if env.mosquitto_topic_matches_sub (expand_loop u template []) topic
          then 1 else 0)) := by
  simp only [template_match, h]

/-- The return value for a non-empty user name that is no superuser and that the
`BE_MYSQL` block does not affirm: the template block decides. -/
theorem acl_check_ret (build : Build) (env : Env) (ud : userdata)
    (clientid : Option CStr) (u topic : CStr) (access : Int) (hu : u ≠ [])
    (hs : superuser_match env ud u = false)
    (hl : (legacy_match build env ud u topic access).1 = 0) :
    (mosquitto_auth_acl_check build env ud clientid (some u) topic access).ret =
      if template_match env ud u topic 0 = 1 then MOSQ_ERR_SUCCESS
      else MOSQ_ERR_ACL_DENIED := by
  have hu1 := isEmpty_false_of_ne_nil u hu
  simp only [mosquitto_auth_acl_check, hu1, hs, hl]
  by_cases ht : template_match env ud u topic 0 = 1 <;> simp [ht]

/-- C3: the code misses the claim. With a chain whose only adapter answers true to
both `superuser` and `aclcheck`, no superuser pattern and no template,
`mosquitto_auth_acl_check` never calls the adapter and returns `MOSQ_ERR_ACL_DENIED`;
and in the `BE_MYSQL` build, where the handle `ud->be` is asked and affirms, it returns
`match`, that is `1`, which is not `MOSQ_ERR_SUCCESS`. -/
theorem C3_affirming_adapter_is_not_asked :
    granting_backend.superuser granting_backend.conf "bob".toList = 1 ∧
      granting_backend.aclcheck granting_backend.conf "bob".toList "sensors/temp".toList
          MOSQ_ACL_READ = 1 ∧
      mosquitto_auth_acl_check plain_build demo_env
          ⟨0, be_list_of [granting_backend] [], none, none⟩ none (some "bob".toList)
          "sensors/temp".toList MOSQ_ACL_READ = ⟨MOSQ_ERR_ACL_DENIED, []⟩ ∧
      mosquitto_auth_acl_check mysql_build granting_env
          ⟨0, be_list_of [mysql_backend granting_env] [], none, none⟩ none
          (some "bob".toList) "sensors/temp".toList MOSQ_ACL_READ
        = ⟨1, [BackendCall.be_mysql_superuser]⟩ ∧
      (1 : Int) ≠ MOSQ_ERR_SUCCESS := by
  decide

/-- C4, as stated, fails: with the template `u/%/`, user `bob`, topic `u/bob/status`,
a single `mysql` adapter whose ACL predicate answers false and the MQTT subscription
matcher, the template expands to `u/bob/`, which neither equals the topic nor matches
it as a subscription, and the result is `MOSQ_ERR_ACL_DENIED`. -/
theorem C4_template_without_wildcard_denies :
    demo_env.mosquitto_topic_matches_sub "u/bob/".toList "u/bob/status".toList = false ∧
      expand_loop "bob".toList "u/%/".toList [] = "u/bob/".toList ∧
      mosquitto_auth_acl_check plain_build demo_env
          ⟨0, be_list_of [mysql_backend demo_env] [], some "u/%/".toList, none⟩ none
          (some "bob".toList) "u/bob/status".toList MOSQ_ACL_READ
        = ⟨MOSQ_ERR_ACL_DENIED, []⟩ ∧
      MOSQ_ERR_ACL_DENIED ≠ MOSQ_ERR_SUCCESS := by
  decide

/-- C4, amended: with superusers unset, the MQTT subscription matcher and a back-end
that affirms neither superuser nor ACL, `mosquitto_auth_acl_check` for user `bob` and
topic `u/bob/status` returns `MOSQ_ERR_ACL_DENIED` when the template is `u/%/`, for
every access type, chain and build; it returns `MOSQ_ERR_SUCCESS` when the template is
`u/%/#`, whose expansion `u/bob/#` ends in the multi-level wildcard. -/
theorem C4_template_needs_wildcard (build : Build) (env : Env) (ud : userdata)
    (clientid : Option CStr) (access : Int)
    (hm : env.mosquitto_topic_matches_sub = mqtt_topic_matches_sub)
    (hsu : ud.superusers = none)
    (hbs : env.be_mysql_superuser ud.be "bob".toList = 0)
    (hba : env.be_mysql_aclcheck ud.be "bob".toList "u/bob/status".toList access = 0) :
    (ud.topicprefix = some "u/%/".toList →
        (mosquitto_auth_acl_check build env ud clientid (some "bob".toList)
          "u/bob/status".toList access).ret = MOSQ_ERR_ACL_DENIED) ∧
      (ud.topicprefix = some "u/%/#".toList →
        (mosquitto_auth_acl_check build env ud clientid (some "bob".toList)
          "u/bob/status".toList access).ret = MOSQ_ERR_SUCCESS) := by
  have hl := legacy_match_fst_zero build env ud "bob".toList "u/bob/status".toList access
    hbs hba
  have hne : "bob".toList ≠ [] := by decide
  have hs : superuser_match env ud "bob".toList = false := by
    simp only [superuser_match, hsu]
  constructor
  · intro htp
    rw [acl_check_ret build env ud clientid _ _ access hne hs hl,
      template_match_some env ud _ _ _ htp, hm]
    decide
  · intro htp
    rw [acl_check_ret build env ud clientid _ _ access hne hs hl,
      template_match_some env ud _ _ _ htp, hm]
    decide

/-- C4, amended, at work in the scenario of the claim: a single `mysql` adapter, no
superuser pattern, template `u/%/`. -/
theorem C4_template_needs_wildcard_witness :
    (mosquitto_auth_acl_check plain_build demo_env
        ⟨0, be_list_of [mysql_backend demo_env] [], some "u/%/".toList, none⟩ none
        (some "bob".toList) "u/bob/status".toList MOSQ_ACL_READ).ret
      = MOSQ_ERR_ACL_DENIED :=
  (C4_template_needs_wildcard plain_build demo_env
    ⟨0, be_list_of [mysql_backend demo_env] [], some "u/%/".toList, none⟩ none
    MOSQ_ACL_READ rfl rfl rfl rfl).1 rfl

/-- C8, as stated, fails at the empty user name: the pattern `*` matches it, and the
test of line 337 denies it before the pattern is looked at. -/
theorem C8_empty_username_matching_pattern_denied :
    demo_env.fnmatch "*".toList [] 0 = 0 ∧
      mosquitto_auth_acl_check plain_build demo_env
          ⟨0, be_list_of [] [], none, some "*".toList⟩ none (some [])
          "sensors/temp".toList MOSQ_ACL_READ = ⟨MOSQ_ERR_ACL_DENIED, []⟩ ∧
      MOSQ_ERR_ACL_DENIED ≠ MOSQ_ERR_SUCCESS := by
  decide

/-- C8, amended: for every superuser pattern, every non-empty user name that matches
it (`fnmatch` returns `0`), every topic and every access type,
`mosquitto_auth_acl_check` returns `MOSQ_ERR_SUCCESS` without asking any back-end,
whatever the chain and the template, the empty chain and the absent template
included. -/
theorem C8_superuser_bypass (build : Build) (env : Env) (ud : userdata)
    (clientid : Option CStr) (pat u topic : CStr) (access : Int)
    (hpat : ud.superusers = some pat) (hmatch : env.fnmatch pat u 0 = 0)
    (hu : u ≠ []) :
    mosquitto_auth_acl_check build env ud clientid (some u) topic access =
      ⟨MOSQ_ERR_SUCCESS, []⟩ := by
  have hu1 := isEmpty_false_of_ne_nil u hu
  simp [mosquitto_auth_acl_check, hu1, superuser_match, hpat, hmatch]

/-- C8, amended, at work: pattern `adm*`, user `admin`, an empty chain and no
template. -/
theorem C8_superuser_bypass_witness :
    glob_fnmatch "adm*".toList "admin".toList 0 = 0 ∧ "admin".toList ≠ [] ∧
      mosquitto_auth_acl_check plain_build demo_env
          ⟨0, be_list_of [] [], none, some "adm*".toList⟩ none (some "admin".toList)
          "sensors/temp".toList MOSQ_ACL_READ = ⟨MOSQ_ERR_SUCCESS, []⟩ :=
  ⟨by decide, by decide,
    C8_superuser_bypass plain_build demo_env ⟨0, be_list_of [] [], none, some "adm*".toList⟩
      none "adm*".toList "admin".toList "sensors/temp".toList MOSQ_ACL_READ rfl
      (by decide) (by decide)⟩

/-- C9: for every build, every configuration (superuser pattern, template, chain),
every client id, topic and access type, `mosquitto_auth_acl_check` with an absent
(`NULL`) or empty user name returns `MOSQ_ERR_ACL_DENIED`, and asks no back-end. -/
theorem C9_empty_username_denied (build : Build) (env : Env) (ud : userdata)
    (clientid : Option CStr) (topic : CStr) (access : Int) :
    mosquitto_auth_acl_check build env ud clientid none topic access =
        ⟨MOSQ_ERR_ACL_DENIED, []⟩ ∧
      mosquitto_auth_acl_check build env ud clientid (some []) topic access =
        ⟨MOSQ_ERR_ACL_DENIED, []⟩ := by
  constructor <;> simp [mosquitto_auth_acl_check]

/-- The known names are not empty and hold no comma. -/
theorem known_name_facts (n : CStr) (h : known_name n) :
    n.isEmpty = false ∧ ',' ∉ n := by
  rcases h with h | h <;> subst h <;> decide

/-- A call of `strsep` on `tok,rest` hands out `tok` and leaves `rest`. -/
theorem strsep_some_comma (t : CStr) :
    ∀ (tok : CStr), ',' ∉ tok → strsep_some (tok ++ ',' :: t) = (tok, some t)
  | [], _ => by simp [strsep_some]
  | c :: tok, h => by
    have hc : c ≠ ',' := fun e => h (by simp [e])
    have ht : ',' ∉ tok := fun e => h (List.mem_cons_of_mem _ e)
    simp [strsep_some, hc, strsep_some_comma t tok ht]

/-- A call of `strsep` on a last token hands it out and leaves `NULL`. -/
theorem strsep_some_last :
    ∀ (tok : CStr), ',' ∉ tok → strsep_some tok = (tok, none)
  | [], _ => by simp [strsep_some]
  | c :: tok, h => by
    have hc : c ≠ ',' := fun e => h (by simp [e])
    have ht : ',' ∉ tok := fun e => h (List.mem_cons_of_mem _ e)
    simp [strsep_some, hc, strsep_some_last tok ht]

/-- The countdown of `init_loop` never decides: any two counters that exceed the
number of cells still free give the same result, because the guard `nord < NBACKENDS`
stops the loop before either runs out. -/
theorem init_loop_counter_irrelevant (env : Env) :
    ∀ (fuel fuel1 nord : Nat) (q p : Option CStr) (be_list : List Slot),
      NBACKENDS < fuel + nord → NBACKENDS < fuel1 + nord →
      init_loop env fuel nord q p be_list = init_loop env fuel1 nord q p be_list
  | 0, 0, _, _, _, _, _, _ => rfl
  | 0, f1 + 1, nord, q, p, be_list, h, _ => by
    have hn : ¬ nord < NBACKENDS := by omega
    cases q <;> simp [init_loop, hn]
  | f + 1, 0, nord, q, p, be_list, _, h1 => by
    have hn : ¬ nord < NBACKENDS := by omega
    cases q <;> simp [init_loop, hn]
  | f + 1, f1 + 1, nord, q, p, be_list, h, h1 => by
    have ih := fun q1 p1 bl => init_loop_counter_irrelevant env f f1 (nord + 1) q1 p1 bl
      (by omega) (by omega)
    cases q with
    | none => simp [init_loop]
    | some q => simp only [init_loop, ih]

/-- One round of the loop on a known name, both constructors succeeding: the adapter
of the name is stored in cell `nord`, `NULL` in the next cell, and the loop goes on
with the next token. -/
theorem init_loop_known (env : Env) (fuel nord : Nat) (n t : CStr) (be_list : List Slot)
    (hn : known_name n) (hnord : nord < NBACKENDS)
    (hm : env.be_mysql_init ≠ 0) (hc : env.be_cdb_init ≠ 0) :
    init_loop env (fuel + 1) nord (some n) (some t) be_list =
      init_loop env fuel (nord + 1) (strsep (some t)).1 (strsep (some t)).2
        ((be_list.set nord (Slot.ptr (adapter_of env n))).set (nord + 1) Slot.null) := by
  have hne := (known_name_facts n hn).1
  rcases hn with h | h
  · subst h
    simp only [init_loop, hne, hnord, hm, adapter_of]
    simp
  · subst h
    have hx : ¬ ("cdb".toList = "mysql".toList) := by decide
    simp only [init_loop, hne, hnord, hc, adapter_of, hx]
    simp

/-- C5: the code misses the claim for the empty list. A missing `backends` key is
fatal in every build, but with the value `""` the loop of lines 166-209 runs no round,
no cell of `be_list` is written (not even the terminating `NULL`), and the build
without `BE_*` returns `MOSQ_ERR_SUCCESS`. -/
theorem C5_empty_backends_value_returns_success (build : Build) (env : Env)
    (auth_opts : List (CStr × CStr)) :
    mosquitto_auth_plugin_init build env none auth_opts = InitOutcome.fatal ∧
      mosquitto_auth_plugin_init plain_build env (some []) auth_opts =
        InitOutcome.returned MOSQ_ERR_SUCCESS
          { scan_opts auth_opts ⟨0, [], none, none⟩ with
            be_list := List.replicate (NBACKENDS + 1) Slot.uninit } ∧
      chain_of (List.replicate (NBACKENDS + 1) Slot.uninit) = none := by
  refine ⟨rfl, rfl, rfl⟩

/-- C7, as stated, fails: with five names configured the loop stops after the fourth
and initialisation returns `MOSQ_ERR_SUCCESS` with a chain of four; with six the loop
stops with input left, and the outcome is the undefined `free(p)`. In neither case is
a configuration error reported. -/
theorem C7_fifth_backend_silently_dropped :
    mosquitto_auth_plugin_init plain_build demo_env
        (some "mysql,cdb,mysql,cdb,mysql".toList) [] =
      InitOutcome.returned MOSQ_ERR_SUCCESS
        ⟨0, be_list_of [mysql_backend demo_env, cdb_backend demo_env,
          mysql_backend demo_env, cdb_backend demo_env] [], none, none⟩ ∧
      mosquitto_auth_plugin_init plain_build demo_env
        (some "cdb,cdb,mysql,cdb,sqlite,mysql".toList) [] = InitOutcome.undefined := by
  refine ⟨rfl, rfl⟩

/-- C7, amended: for every `backends` value of five elements, the first four known
names whose constructors succeed, `mosquitto_auth_plugin_init` (built without `BE_*`)
reports no error: the guard `nord < NBACKENDS` ends the loop after the fourth name,
the fifth element is neither taken into the chain nor validated, and the function
returns `MOSQ_ERR_SUCCESS` with the chain of the first four adapters. -/
theorem C7_more_than_four_names_truncated (env : Env) (auth_opts : List (CStr × CStr))
    (a b c d t : CStr) (ha : known_name a) (hb : known_name b) (hc : known_name c)
    (hd : known_name d) (ht : ',' ∉ t)
    (hm : env.be_mysql_init ≠ 0) (hcdb : env.be_cdb_init ≠ 0) :
    mosquitto_auth_plugin_init plain_build env (some (prepend_names [a, b, c, d] t))
        auth_opts =
      InitOutcome.returned MOSQ_ERR_SUCCESS
        { scan_opts auth_opts ⟨0, [], none, none⟩ with
          be_list := be_list_of [adapter_of env a, adapter_of env b, adapter_of env c,
            adapter_of env d] [] } := by
  have sa : strsep (some (prepend_names [a, b, c, d] t)) =
      (some a, some (prepend_names [b, c, d] t)) := by
    simp [strsep, prepend_names, strsep_some_comma _ a (known_name_facts a ha).2]
  have sb : strsep (some (prepend_names [b, c, d] t)) =
      (some b, some (prepend_names [c, d] t)) := by
    simp [strsep, prepend_names, strsep_some_comma _ b (known_name_facts b hb).2]
  have sc : strsep (some (prepend_names [c, d] t)) =
      (some c, some (prepend_names [d] t)) := by
    simp [strsep, prepend_names, strsep_some_comma _ c (known_name_facts c hc).2]
  have sd : strsep (some (prepend_names [d] t)) = (some d, some t) := by
    simp [strsep, prepend_names, strsep_some_comma _ d (known_name_facts d hd).2]
  have st : strsep (some t) = (some t, none) := by
    simp [strsep, strsep_some_last t ht]
  have hloop : init_loop env (NBACKENDS + 1) 0 (some a) (some (prepend_names [b, c, d] t))
      (List.replicate (NBACKENDS + 1) Slot.uninit) =
      some (be_list_of [adapter_of env a, adapter_of env b, adapter_of env c,
        adapter_of env d] [], none) := by
    rw [show NBACKENDS + 1 = 4 + 1 from rfl,
      init_loop_known env 4 0 a _ _ ha (by decide) hm hcdb, sb,
      init_loop_known env 3 1 b _ _ hb (by decide) hm hcdb, sc,
      init_loop_known env 2 2 c _ _ hc (by decide) hm hcdb, sd,
      init_loop_known env 1 3 d _ _ hd (by decide) hm hcdb, st]
    simp [init_loop, NBACKENDS, be_list_of, List.replicate]
  simp only [mosquitto_auth_plugin_init, sa, hloop, plain_build]
  simp

/-- C7, amended, at work: five elements, the fifth of which is not even a known
name. -/
theorem C7_more_than_four_names_truncated_witness :
    mosquitto_auth_plugin_init plain_build demo_env
        (some (prepend_names ["cdb".toList, "cdb".toList, "mysql".toList, "cdb".toList]
          "sqlite".toList)) [("superusers".toList, "adm*".toList)] =
      InitOutcome.returned MOSQ_ERR_SUCCESS
        { scan_opts [("superusers".toList, "adm*".toList)] ⟨0, [], none, none⟩ with
          be_list := be_list_of [adapter_of demo_env "cdb".toList,
            adapter_of demo_env "cdb".toList, adapter_of demo_env "mysql".toList,
            adapter_of demo_env "cdb".toList] [] } :=
  C7_more_than_four_names_truncated demo_env [("superusers".toList, "adm*".toList)]
    "cdb".toList "cdb".toList "mysql".toList "cdb".toList "sqlite".toList
    (Or.inr rfl) (Or.inr rfl) (Or.inl rfl) (Or.inr rfl) (by decide) (by decide)
    (by decide)

/-! ## Theorems: the authentication chain, continued -/

/-- An adapter is accepted exactly when it returns a record on which `pbkdf2_check`
yields `1`. -/
theorem accepts_iff (env : Env) (u p : CStr) (a : backend_p) :
    accepts env u p a = true ↔
      ∃ r, a.getuser a.conf u = some r ∧ env.pbkdf2_check p r = 1 := by
  unfold accepts
  cases hg : a.getuser a.conf u with
  | none => simp
  | some r => simp

/-- C11: for every `be_list`, well formed or not, and every user name and password of
which at least one is absent (`NULL`) or empty, `mosquitto_auth_unpwd_check` returns
`MOSQ_ERR_AUTH` and calls `getuser` on no adapter. -/
theorem C11_empty_credentials_denied (env : Env) (ud : userdata)
    (username password : Option CStr)
    (h : username = none ∨ username = some [] ∨ password = none ∨ password = some []) :
    mosquitto_auth_unpwd_check env ud username password = some ⟨MOSQ_ERR_AUTH, []⟩ := by
  cases username with
  | none => cases password <;> simp [mosquitto_auth_unpwd_check]
  | some u =>
    cases password with
    | none => simp [mosquitto_auth_unpwd_check]
    | some p =>
      rcases h with h | h | h | h
      · cases h
      · cases h
        simp [mosquitto_auth_unpwd_check]
      · cases h
      · cases h
        simp [mosquitto_auth_unpwd_check]

/-- C11 at work: user `bob` with an empty password, in front of a `be_list` whose first
cell was never written: the list is not read. -/
theorem C11_empty_credentials_denied_witness :
    mosquitto_auth_unpwd_check demo_env ⟨0, [Slot.uninit], none, none⟩
        (some "bob".toList) (some []) = some ⟨MOSQ_ERR_AUTH, []⟩ :=
  C11_empty_credentials_denied demo_env ⟨0, [Slot.uninit], none, none⟩
    (some "bob".toList) (some []) (Or.inr (Or.inr (Or.inr rfl)))

/-- C18: for every well-formed chain and every non-empty user name and password,
`mosquitto_auth_unpwd_check` returns `MOSQ_ERR_SUCCESS` if and only if some adapter of
the chain returns a record for the user name on which `pbkdf2_check` yields `1` for
the password; in every other case, the one in which no adapter returns a record
included, it returns `MOSQ_ERR_AUTH`. -/
theorem C18_success_iff_some_record_accepted (env : Env) (ud : userdata)
    (chain : List backend_p) (tail : List Slot) (u p : CStr)
    (hlist : ud.be_list = be_list_of chain tail) (hu : u ≠ []) (hp : p ≠ []) :
    ((mosquitto_auth_unpwd_check env ud (some u) (some p)).map Outcome.ret =
        some MOSQ_ERR_SUCCESS ↔
      ∃ a ∈ chain, ∃ r, a.getuser a.conf u = some r ∧ env.pbkdf2_check p r = 1) ∧
    ((¬ ∃ a ∈ chain, ∃ r, a.getuser a.conf u = some r ∧ env.pbkdf2_check p r = 1) →
      (mosquitto_auth_unpwd_check env ud (some u) (some p)).map Outcome.ret =
        some MOSQ_ERR_AUTH) := by
  have hret := unpwd_check_ret env ud chain tail u p hlist hu hp
  have hany : chain.any (accepts env u p) = true ↔
      ∃ a ∈ chain, ∃ r, a.getuser a.conf u = some r ∧ env.pbkdf2_check p r = 1 := by
    rw [List.any_eq_true]
    constructor
    · rintro ⟨a, ha, hacc⟩
      exact ⟨a, ha, (accepts_iff env u p a).1 hacc⟩
    · rintro ⟨a, ha, hex⟩
      exact ⟨a, ha, (accepts_iff env u p a).2 hex⟩
  rw [hret]
  constructor
  · rw [← hany]
    cases chain.any (accepts env u p) <;> simp [MOSQ_ERR_SUCCESS, MOSQ_ERR_AUTH]
  · intro hno
    have hfalse : chain.any (accepts env u p) = false := by
      cases h : chain.any (accepts env u p) with
      | false => rfl
      | true => exact absurd (hany.1 h) hno
    simp [hfalse]

/-- C18 at work: `carol` with password `secret` on the chain `mysql, cdb`, where only
`cdb` holds a record for her. -/
theorem C18_success_iff_some_record_accepted_witness :
    (mosquitto_auth_unpwd_check demo_env demo_ud (some "carol".toList)
        (some "secret".toList)).map Outcome.ret = some MOSQ_ERR_SUCCESS :=
  (C18_success_iff_some_record_accepted demo_env demo_ud
    [mysql_backend demo_env, cdb_backend demo_env] [Slot.uninit, Slot.uninit]
    "carol".toList "secret".toList rfl (by decide) (by decide)).1.2
    ⟨cdb_backend demo_env, by simp, "secret".toList, by decide, by decide⟩

/-! ## Theorems: the topic template expander -/

/-- The loop appends to `tname` the expansion of what is left of the template. -/
theorem expand_loop_eq (u : CStr) :
    ∀ (s tname : CStr), expand_loop u s tname = tname ++ expand_spec s u
  | [], tname => by simp [expand_loop, expand_spec]
  | c :: s, tname => by
    by_cases hc : c = '%'
    · simp [expand_loop, hc, expand_loop_eq u s, expand_spec]
    · simp [expand_loop, hc, expand_loop_eq u s, expand_spec]

/-- The counting loop adds the number of `%` to the count it starts from. -/
theorem count_percent_acc :
    ∀ (s : CStr) (n : Nat), count_percent s n = n + count_percent s 0
  | [], n => by simp [count_percent]
  | c :: s, n => by
    by_cases hc : c = '%'
    · simp only [count_percent, hc, if_true]
      rw [count_percent_acc s (n + 1), count_percent_acc s (0 + 1)]
      omega
    · simp only [count_percent, hc, if_false]
      exact count_percent_acc s n

/-- The length of the expansion, without subtraction: every `%` gives up its own place
and takes the length of the user name. -/
theorem expand_spec_length (u : CStr) :
    ∀ (s : CStr), (expand_spec s u).length + count_percent s 0 =
      s.length + count_percent s 0 * u.length
  | [] => by simp [expand_spec, count_percent]
  | c :: s => by
    have ih := expand_spec_length u s
    have hcons : expand_spec (c :: s) u =
        (if c = '%' then u else [c]) ++ expand_spec s u := by
      simp [expand_spec]
    by_cases hc : c = '%'
    · rw [hcons]
      simp only [count_percent, hc, if_true, List.length_append, List.length_cons]
      rw [count_percent_acc s (0 + 1)]
      have hmul : (0 + 1 + count_percent s 0) * u.length =
          u.length + count_percent s 0 * u.length := by ring
      rw [hmul]
      omega
    · rw [hcons]
      simp only [count_percent, hc, if_false, List.length_append, List.length_cons,
        List.length_nil]
      omega

/-- C12: for every topic template and every user name, the string the expansion loop
builds in `tname` is the template with each `%` replaced by a literal copy of the user
name and every other character copied in order; a `%` inside the user name is not
expanded again. Template `u/%/#` and user name `alice` give `u/alice/#`. -/
theorem C12_expansion_replaces_each_percent (template username : CStr) :
    expand_loop username template [] = expand_spec template username ∧
      expand_loop "alice".toList "u/%/#".toList [] = "u/alice/#".toList ∧
      expand_loop "a%".toList "%/%".toList [] = "a%/a%".toList := by
  refine ⟨?_, by decide, by decide⟩
  simp [expand_loop_eq]

/-- C13: for every topic template and every user name, the length of the expanded
topic is len(template) + n × (len(username) − 1) over the integers, n being the number
of `%` the loop of lines 367-370 counts; template `u/%/#` and user name `alice` expand
to `u/alice/#`, of length 9. -/
theorem C13_expansion_length (template username : CStr) :
    ((expand_loop username template []).length : Int) =
        (template.length : Int) +
          (count_percent template 0 : Int) * ((username.length : Int) - 1) ∧
      expand_loop "alice".toList "u/%/#".toList [] = "u/alice/#".toList ∧
      (expand_loop "alice".toList "u/%/#".toList []).length = 9 := by
  refine ⟨?_, by decide, by decide⟩
  have h := expand_spec_length username template
  have hl : expand_loop username template [] = expand_spec template username := by
    simp [expand_loop_eq]
  rw [hl]
  have h2 : ((expand_spec template username).length : Int) + (count_percent template 0 : Int)
      = (template.length : Int) + (count_percent template 0 : Int) * (username.length : Int) := by
    exact_mod_cast h
  linarith

/-! ## Theorems: the expansion loop on the buffer -/

/-- A store at the index right after `pre` replaces the cell found there. -/
theorem set_at_length {α : Type} (y x : α) (junk : List α) :
    ∀ (pre : List α), (pre ++ x :: junk).set pre.length y = pre ++ y :: junk
  | [] => rfl
  | a :: pre => by simp [set_at_length y x junk pre]

/-- With no token at hand the loop is over. -/
theorem init_loop_no_token (env : Env) (fuel nord : Nat) (p : Option CStr)
    (be_list : List Slot) :
    init_loop env fuel nord none p be_list = some (be_list, p) := by
  cases fuel <;> simp [init_loop]

/-- One round of the loop on a known name whose constructor succeeds, whatever is left
of the list: the adapter goes to cell `nord`, `NULL` to the next cell, and the loop
goes on with the next token. -/
theorem init_loop_round (env : Env) (fuel nord : Nat) (n : CStr) (p : Option CStr)
    (be_list : List Slot) (hn : known_name n) (hnord : nord < NBACKENDS)
    (hm : n = "mysql".toList → env.be_mysql_init ≠ 0)
    (hc : n = "cdb".toList → env.be_cdb_init ≠ 0) :
    init_loop env (fuel + 1) nord (some n) p be_list =
      init_loop env fuel (nord + 1) (strsep p).1 (strsep p).2
        ((be_list.set nord (Slot.ptr (adapter_of env n))).set (nord + 1) Slot.null) := by
  have hne := (known_name_facts n hn).1
  rcases hn with h | h
  · have hm1 := hm h
    subst h
    simp only [init_loop, hne, hnord, hm1, adapter_of]
    simp
  · have hc1 := hc h
    subst h
    have hx : ¬ ("cdb".toList = "mysql".toList) := by decide
    simp only [init_loop, hne, hnord, hc1, adapter_of, hx]
    simp

/-- The first call of `strsep` on a list of names hands out the first name and leaves
the list of the others, or `NULL` when there is no other. -/
theorem strsep_join_names (n : CStr) (ns : List CStr) (hn : ',' ∉ n) :
    strsep (some (join_names (n :: ns))) =
      (some n, match ns with
        | [] => none
        | m :: ms => some (join_names (m :: ms))) := by
  cases ns with
  | nil => simp [strsep, join_names, strsep_some_last n hn]
  | cons m ms => simp [strsep, join_names, strsep_some_comma _ n hn]

/-- The adapter built for a known name carries that name. -/
theorem adapter_of_name (env : Env) (n : CStr) (hn : known_name n) :
    (adapter_of env n).name = n := by
  rcases hn with h | h <;> subst h <;> rfl

/-- A well-formed `be_list` read back. -/
theorem chain_of_be_list_of (tail : List Slot) :
    ∀ (chain : List backend_p), chain_of (be_list_of chain tail) = some chain
  | [] => rfl
  | b :: chain => by
    have ih := chain_of_be_list_of tail chain
    simp only [be_list_of] at ih
    simp [be_list_of, chain_of, ih]

/-- The loop on a list of known names that fits the cells left, every constructor
needed succeeding: it stores one adapter per name, in order, behind the adapters
already there, and the terminating `NULL` behind them. -/
theorem init_loop_names (env : Env) :
    ∀ (ns : List CStr) (n : CStr) (fuel nord : Nat) (pre : List backend_p)
      (r0 r1 : Slot) (rs : List Slot),
      (∀ x ∈ n :: ns, known_name x) →
      ("mysql".toList ∈ n :: ns → env.be_mysql_init ≠ 0) →
      ("cdb".toList ∈ n :: ns → env.be_cdb_init ≠ 0) →
      pre.length = nord → nord + ns.length + 1 ≤ NBACKENDS → ns.length + 1 ≤ fuel →
      ns.length ≤ rs.length →
      init_loop env fuel nord (some n)
          (match ns with
            | [] => none
            | m :: ms => some (join_names (m :: ms)))
          (pre.map Slot.ptr ++ r0 :: r1 :: rs) =
        some (be_list_of (pre ++ (n :: ns).map (adapter_of env)) (rs.drop ns.length),
          none)
  | [], n, fuel, nord, pre, r0, r1, rs, hk, hm, hc, hpre, hnord, hfuel, _ => by
    obtain ⟨f, rfl⟩ : ∃ f, fuel = f + 1 := ⟨fuel - 1, by simp at hfuel; omega⟩
    have hn : known_name n := hk n (List.mem_cons_self _ _)
    have hlen : nord = (pre.map Slot.ptr).length := by simp [hpre]
    have hlen1 : nord + 1 = (pre.map Slot.ptr ++ [Slot.ptr (adapter_of env n)]).length := by
      simp [hpre]
    rw [init_loop_round env f nord n none _ hn (by simp at hnord; omega)
      (fun e => hm (by simp [e])) (fun e => hc (by simp [e]))]
    have e1 : (pre.map Slot.ptr ++ r0 :: r1 :: rs).set nord (Slot.ptr (adapter_of env n)) =
        (pre.map Slot.ptr ++ [Slot.ptr (adapter_of env n)]) ++ r1 :: rs := by
      rw [hlen, set_at_length]
      simp
    have e2 : ((pre.map Slot.ptr ++ [Slot.ptr (adapter_of env n)]) ++ r1 :: rs).set (nord + 1)
        Slot.null = (pre.map Slot.ptr ++ [Slot.ptr (adapter_of env n)]) ++ Slot.null :: rs := by
      have h := set_at_length Slot.null r1 rs
        (pre.map Slot.ptr ++ [Slot.ptr (adapter_of env n)])
      rw [← hlen1] at h
      exact h
    rw [e1, e2]
    simp [strsep, init_loop_no_token, be_list_of]
  | m :: ms, n, fuel, nord, pre, r0, r1, rs, hk, hm, hc, hpre, hnord, hfuel, hrs => by
    obtain ⟨f, rfl⟩ : ∃ f, fuel = f + 1 := ⟨fuel - 1, by simp at hfuel; omega⟩
    have hn : known_name n := hk n (List.mem_cons_self _ _)
    have hmk : known_name m := hk m (by simp)
    cases rs with
    | nil => simp at hrs
    | cons r rs1 =>
      have hlen : nord = (pre.map Slot.ptr).length := by simp [hpre]
      have hlen1 : nord + 1 = (pre.map Slot.ptr ++ [Slot.ptr (adapter_of env n)]).length := by
        simp [hpre]
      simp only [List.length_cons] at hnord hfuel hrs
      rw [init_loop_round env f nord n _ _ hn (by omega)
        (fun e => hm (by simp [e])) (fun e => hc (by simp [e]))]
      have e1 : (pre.map Slot.ptr ++ r0 :: r1 :: r :: rs1).set nord
          (Slot.ptr (adapter_of env n)) =
          (pre.map Slot.ptr ++ [Slot.ptr (adapter_of env n)]) ++ r1 :: r :: rs1 := by
        rw [hlen, set_at_length]
        simp
      have e2 : ((pre.map Slot.ptr ++ [Slot.ptr (adapter_of env n)]) ++ r1 :: r :: rs1).set
          (nord + 1) Slot.null =
          (pre ++ [adapter_of env n]).map Slot.ptr ++ Slot.null :: r :: rs1 := by
        have h := set_at_length Slot.null r1 (r :: rs1)
          (pre.map Slot.ptr ++ [Slot.ptr (adapter_of env n)])
        rw [← hlen1] at h
        rw [h]
        simp
      rw [e1, e2, strsep_join_names m ms (known_name_facts m hmk).2]
      dsimp only
      have ih := init_loop_names env ms m f (nord + 1) (pre ++ [adapter_of env n])
        Slot.null r rs1 (fun x hx => hk x (List.mem_cons_of_mem _ hx))
        (fun e => hm (List.mem_cons_of_mem _ e)) (fun e => hc (List.mem_cons_of_mem _ e))
        (by simp [hpre]) (by omega) (by omega) (by omega)
      rw [ih]
      simp

/-- C15: for every `backends` value that is a comma-separated list of 1 to 4 known
names (no empty element) whose constructors succeed, `mosquitto_auth_plugin_init`
returns (with `MOSQ_ERR_SUCCESS` when no `BE_*` symbol is defined) and leaves a
`be_list` that holds exactly one adapter per name, in configuration order, followed by
the terminating `NULL`; adapter i carries the i-th configured name. -/
theorem C15_chain_in_configuration_order (build : Build) (env : Env)
    (auth_opts : List (CStr × CStr)) (names : List CStr)
    (hne : names ≠ []) (hlen : names.length ≤ NBACKENDS)
    (hk : ∀ n ∈ names, known_name n)
    (hm : "mysql".toList ∈ names → env.be_mysql_init ≠ 0)
    (hc : "cdb".toList ∈ names → env.be_cdb_init ≠ 0) :
    mosquitto_auth_plugin_init build env (some (join_names names)) auth_opts =
        InitOutcome.returned
          (if build.BE_CDB || build.BE_MYSQL then MOSQ_ERR_UNKNOWN else MOSQ_ERR_SUCCESS)
          { scan_opts auth_opts ⟨0, [], none, none⟩ with
            be_list := be_list_of (names.map (adapter_of env))
              (List.replicate (NBACKENDS - names.length) Slot.uninit) } ∧
      chain_of (be_list_of (names.map (adapter_of env))
          (List.replicate (NBACKENDS - names.length) Slot.uninit)) =
        some (names.map (adapter_of env)) ∧
      (names.map (adapter_of env)).map backend_p.name = names := by
  refine ⟨?_, chain_of_be_list_of _ _, ?_⟩
  · cases names with
    | nil => exact absurd rfl hne
    | cons n ns =>
      have hn : known_name n := hk n (List.mem_cons_self _ _)
      simp only [List.length_cons] at hlen
      have hloop := init_loop_names env ns n (NBACKENDS + 1) 0 [] Slot.uninit Slot.uninit
        (List.replicate 3 Slot.uninit) hk hm hc rfl (by omega) (by omega)
        (by simp [NBACKENDS] at hlen ⊢; omega)
      have hinit : ([] : List backend_p).map Slot.ptr ++
          Slot.uninit :: Slot.uninit :: List.replicate 3 Slot.uninit =
          List.replicate (NBACKENDS + 1) Slot.uninit := rfl
      rw [hinit] at hloop
      have htail : (List.replicate 3 Slot.uninit).drop ns.length =
          List.replicate (NBACKENDS - (n :: ns).length) Slot.uninit := by
        rw [List.drop_replicate]
        simp only [List.length_cons, NBACKENDS]
        congr 1
        omega
      rw [htail, List.nil_append] at hloop
      simp only [mosquitto_auth_plugin_init,
        strsep_join_names n ns (known_name_facts n hn).2, hloop]
      cases build.BE_CDB <;> cases build.BE_MYSQL <;> simp
  · rw [List.map_map]
    conv_rhs => rw [← List.map_id names]
    apply List.map_congr_left
    intro n hn
    exact adapter_of_name env n (hk n hn)

/-- C15 at work: the configured order `cdb,mysql` gives the chain `cdb`, `mysql`. -/
theorem C15_chain_in_configuration_order_witness :
    mosquitto_auth_plugin_init plain_build demo_env (some "cdb,mysql".toList) [] =
      InitOutcome.returned MOSQ_ERR_SUCCESS
        ⟨0, be_list_of [cdb_backend demo_env, mysql_backend demo_env]
          [Slot.uninit, Slot.uninit], none, none⟩ :=
  (C15_chain_in_configuration_order plain_build demo_env [] ["cdb".toList, "mysql".toList]
    (by simp) (by decide) (by decide) (by decide) (by decide)).1

/-- C16: the code misses the claim. After an initialisation that built the chain
`mysql, cdb`, the teardown the specification asks for is `kill` on cell 0, then on
cell 1; `mosquitto_auth_plugin_cleanup` returns `MOSQ_ERR_SUCCESS` and has called the
`kill` of no adapter. -/
theorem C16_cleanup_kills_no_adapter :
    mosquitto_auth_plugin_init plain_build demo_env (some "mysql,cdb".toList) [] =
        InitOutcome.returned MOSQ_ERR_SUCCESS demo_ud ∧
      chain_of demo_ud.be_list = some [mysql_backend demo_env, cdb_backend demo_env] ∧
      kill_calls_expected [mysql_backend demo_env, cdb_backend demo_env] = [0, 1] ∧
      mosquitto_auth_plugin_cleanup demo_ud = (MOSQ_ERR_SUCCESS, []) ∧
      (mosquitto_auth_plugin_cleanup demo_ud).2 ≠
        kill_calls_expected [mysql_backend demo_env, cdb_backend demo_env] := by
  refine ⟨rfl, rfl, rfl, rfl, by decide⟩

end AuthPlug
